import Mathlib

/-!
Shallow embedding of the attendance bot in `app.py` (LINE webhook front-end
over a Google-Sheets store).  Python strings are Lean `String`s, Python
`dict`/worksheet state is explicit and threaded through every handler,
Python floats are modelled as exact scaled decimals (`Dec`, below) with an
explicit two-decimal rounding (`round2`), and Python exceptions are
modelled by `Option`/sum-type results.
Outbound LINE messages are modelled as structured payloads (`Reply`): the
embedding keeps every semantic field (names, amounts, weekday, balances)
and abstracts only the visual card layout and the wall-clock timestamp
string column of the audit log, which no theorem below depends on.
-/

/-! ### String primitives (Python `str` operations used by `app.py`) -/

/-- Whitespace as recognised by Python `str.strip()` (the characters that
can actually occur in LINE text payloads). -/
def isWs (c : Char) : Bool :=
  c = ' ' || c = '\t' || c = '\n' || c = '\r'

/-- `str.strip()` on the character list. -/
def trimL (l : List Char) : List Char :=
  ((l.dropWhile isWs).reverse.dropWhile isWs).reverse

/-- Python `str.strip()`. -/
def pyTrim (s : String) : String :=
  ⟨trimL s.data⟩

/-- Prefix test on character lists (first list is the candidate prefix). -/
def chStarts : List Char → List Char → Bool
  | [], _ => true
  | _ :: _, [] => false
  | p :: ps, c :: cs => if p = c then chStarts ps cs else false

/-- Python `str.startswith(p)`. -/
def pyStartsWith (s p : String) : Bool :=
  chStarts p.data s.data

/-- Split a character list at the first occurrence of `d`
(`str.split(d, 1)` when a separator is present). -/
def splitOnceL (d : Char) : List Char → Option (List Char × List Char)
  | [] => none
  | c :: cs =>
    if c = d then some ([], cs)
    else (splitOnceL d cs).map (fun p => (c :: p.1, p.2))

/-- The part of `t` after the first `':'` — `t.split(":", 1)[1]` (used only
when the caller has already established that a colon is present). -/
def afterColon (t : String) : String :=
  match splitOnceL ':' t.data with
  | some p => ⟨p.2⟩
  | none => ""

/-- Python `text.split(":", 2)` when it yields exactly three parts; `none`
models the `ValueError` of unpacking fewer parts. -/
def splitTwoStr (t : String) (d : Char) : Option (String × String × String) :=
  match splitOnceL d t.data with
  | none => none
  | some (a, rest) =>
    match splitOnceL d rest with
    | none => none
    | some (b, c) => some (⟨a⟩, ⟨b⟩, ⟨c⟩)

/-- `str.split(d)` (no limit), accumulator-based. -/
def splitAllAux (d : Char) : List Char → List Char → List (List Char)
  | [], acc => [acc.reverse]
  | c :: cs, acc =>
    if c = d then acc.reverse :: splitAllAux d cs [] else splitAllAux d cs (c :: acc)

/-- Python `data.split("&")`. -/
def pySplitAll (s : String) (d : Char) : List String :=
  (splitAllAux d s.data []).map (fun l => (⟨l⟩ : String))

/-- Numeric value of a digit list (most significant first). -/
def digitsVal (l : List Char) : Nat :=
  l.foldl (fun a c => 10 * a + (c.toNat - 48)) 0

def allDigits (l : List Char) : Bool :=
  l.all Char.isDigit

/-- Python `int(s)` on a sign-plus-decimal-digits literal; `none` models
`ValueError`.  (Exotic accepted forms — underscores, non-ASCII digits — do
not occur in this system's data and are modelled as failures.) -/
def pyIntOfChars : List Char → Option Int
  | '-' :: ds => if ds ≠ [] ∧ allDigits ds then some (-(digitsVal ds : Int)) else none
  | '+' :: ds => if ds ≠ [] ∧ allDigits ds then some ((digitsVal ds : Int)) else none
  | ds => if ds ≠ [] ∧ allDigits ds then some ((digitsVal ds : Int)) else none

/-- Python `int(s)` (which strips surrounding whitespace itself). -/
def pyInt? (s : String) : Option Int :=
  pyIntOfChars (pyTrim s).data

/-! ### Exact decimal numbers

Every numeric value this app handles is a decimal literal — a sheet cell
like `"2.5"` or a button label like `"1.5"` — and the only arithmetic
performed on it is subtraction and `round(·, 2)`.  Python's binary floats
are therefore modelled as exact scaled decimals `m / 10 ^ e`, kept in the
canonical form where the mantissa is not a multiple of ten unless the
exponent is zero (so equal values are structurally equal).  This is exact
arithmetic; binary representation error and round-half-to-even at exact
half-cent boundaries are abstracted. -/

/-- The value `m / 10 ^ e`. -/
structure Dec where
  m : Int
  e : Nat
deriving DecidableEq

/-- Strip factors of ten (fuel-based for structural recursion). -/
def canonAux : Nat → Int → Nat → Dec
  | 0, m, e => ⟨m, e⟩
  | _ + 1, m, 0 => ⟨m, 0⟩
  | f + 1, m, Nat.succ e => if m % 10 = 0 then canonAux f (m / 10) e else ⟨m, e + 1⟩

/-- Canonical form of `m / 10 ^ e`. -/
def Dec.canon (m : Int) (e : Nat) : Dec := canonAux e m e

instance : Zero Dec := ⟨⟨0, 0⟩⟩

instance : Neg Dec := ⟨fun d => ⟨-d.m, d.e⟩⟩

/-- Subtraction on a common scale. -/
instance : Sub Dec :=
  ⟨fun a b =>
    Dec.canon (a.m * (10 : Int) ^ (max a.e b.e - a.e) - b.m * (10 : Int) ^ (max a.e b.e - b.e))
      (max a.e b.e)⟩

/-- Comparison by cross-multiplying the (positive) denominators. -/
def Dec.lt (a b : Dec) : Prop := a.m * (10 : Int) ^ b.e < b.m * (10 : Int) ^ a.e

def Dec.le (a b : Dec) : Prop := a.m * (10 : Int) ^ b.e ≤ b.m * (10 : Int) ^ a.e

instance : LT Dec := ⟨Dec.lt⟩

instance : LE Dec := ⟨Dec.le⟩

instance (a b : Dec) : Decidable (a < b) := by
  show Decidable (a.m * (10 : Int) ^ b.e < b.m * (10 : Int) ^ a.e); infer_instance

instance (a b : Dec) : Decidable (a ≤ b) := by
  show Decidable (a.m * (10 : Int) ^ b.e ≤ b.m * (10 : Int) ^ a.e); infer_instance

/-- Unsigned part of a Python `float` literal: digits with an optional
fractional part, at least one digit overall. -/
def pyFracOfChars (l : List Char) : Option Dec :=
  match splitOnceL '.' l with
  | none => if l ≠ [] ∧ allDigits l then some (Dec.canon (digitsVal l : Int) 0) else none
  | some (ip, fp) =>
    if (allDigits ip ∧ allDigits fp) ∧ (ip ≠ [] ∨ fp ≠ []) then
      some (Dec.canon ((digitsVal ip : Int) * (10 : Int) ^ fp.length + (digitsVal fp : Int))
        fp.length)
    else none

def pyFloatOfChars : List Char → Option Dec
  | '-' :: r => (pyFracOfChars r).map (fun q => -q)
  | '+' :: r => pyFracOfChars r
  | r => pyFracOfChars r

/-- Python `float(s)` on plain decimal literals; `none` models
`ValueError`.  (Exponent/`inf`/`nan` forms never arise from this system's
buttons or sheet cells and are modelled as failures.) -/
def pyFloat? (s : String) : Option Dec :=
  pyFloatOfChars (pyTrim s).data

/-- Python `round(x, 2)`: a value with at most two decimals is exact;
otherwise round half-up at the second decimal (floor of `x * 100 + 1/2`).
No value in the claims sits on a half-cent boundary, so the half-even
versus half-up difference is immaterial. -/
def round2 (d : Dec) : Dec :=
  if d.e ≤ 2 then d
  else Dec.canon ((2 * d.m + (10 : Int) ^ (d.e - 2)).fdiv (2 * (10 : Int) ^ (d.e - 2))) 2

/-! ### Data model: sheets, sessions, audit log -/

/-- A balance cell of the `students` sheet, column B: either raw sheet text
or a number previously written back by `set_remaining` (gspread writes the
number; reading it back yields the same value). -/
inductive Cell
  | str (s : String)
  | num (q : Dec)
deriving DecidableEq

/-- One appended row of the `attendance_log` sheet.  The wall-clock
timestamp string column is abstracted away (no claim mentions it). -/
structure LogEntry where
  teacher : String
  student : String
  classes : String
  status : String
  remaining_after : Dec
deriving DecidableEq

/-- One in-memory `PENDING` entry: `{"stage": ..., "weekday": ..., "ts": ...}`. -/
structure Pending where
  stage : String
  weekday : Int
  ts : Int
deriving DecidableEq

/-- `PENDING_TIMEOUT_SEC = 10 * 60`. -/
def PENDING_TIMEOUT_SEC : Int := 10 * 60

/-- The `PENDING` dict, modelled as an association list keyed by user id
(every observation goes through `pending_lookup`). -/
def PendingMap := List (String × Pending)

instance : DecidableEq PendingMap := by
  unfold PendingMap; infer_instance

/-- `PENDING.get(uid)` without the timeout logic. -/
def pending_lookup (m : PendingMap) (uid : String) : Option Pending :=
  (m.find? (fun p => p.1 = uid)).map Prod.snd

/-- `PENDING.pop(uid, None)` (as far as later lookups can observe). -/
def pending_erase (m : PendingMap) (uid : String) : PendingMap :=
  m.filter (fun p => ¬ p.1 = uid)

/-- `pending_get(uid)` at wall-clock second `now`: lazy expiry on read —
an entry older than `PENDING_TIMEOUT_SEC` is evicted and reported absent.
Returns the (possibly evicted-from) map together with the result. -/
def pending_get (m : PendingMap) (uid : String) (now : Int) : PendingMap × Option Pending :=
  match pending_lookup m uid with
  | none => (m, none)
  | some st =>
    if now - st.ts > PENDING_TIMEOUT_SEC then (pending_erase m uid, none)
    else (m, some st)

/-- `pending_set(uid, stage, weekday)` stamped at `now`. -/
def pending_set (m : PendingMap) (uid : String) (stage : String) (weekday : Int)
    (now : Int) : PendingMap :=
  (uid, ⟨stage, weekday, now⟩) :: pending_erase m uid

/-- `pending_clear(uid)` — defined in `app.py` but never called by any
handler. -/
def pending_clear (m : PendingMap) (uid : String) : PendingMap :=
  pending_erase m uid

/-! ### students sheet: `find_student_row`, `get_remaining`, `set_remaining` -/

/-- The `students` worksheet: row 1 is the header; column A is the student
name, column B the balance cell. -/
def StudentsWs := List (String × Cell)

instance : DecidableEq StudentsWs := by
  unfold StudentsWs; infer_instance

/-- The scan `for idx, n in enumerate(names[1:], start=2)`: first row whose
stripped column-A value equals `nm`, reported as a 1-based sheet row. -/
def findRowAux (nm : String) : List (String × Cell) → Nat → Option Nat
  | [], _ => none
  | p :: rest, i => if pyTrim p.1 = nm then some i else findRowAux nm rest (i + 1)

/-- `find_student_row(student_name)`. -/
def find_student_row (ws : StudentsWs) (nm : String) : Option Nat :=
  match ws with
  | [] => none
  | _ :: rest => findRowAux nm rest 2

/-- `ws_students.cell(row, 2).value` for a 1-based sheet row. -/
def cellAt (ws : StudentsWs) (r : Nat) : Option Cell :=
  (ws.get? (r - 1)).map Prod.snd

/-- Result of `get_remaining`: the two distinct `ValueError`s it raises are
kept apart. -/
inductive BalRes
  | ok (q : Dec)
  | notFound
  | notANumber
deriving DecidableEq

/-- Reading one balance cell: `(val or "").strip()`, empty string means
`0.0`, otherwise `float(val)` with a distinct error on parse failure. -/
def readCell : Cell → BalRes
  | .num q => .ok q
  | .str s =>
    let v := pyTrim s
    if v = "" then .ok 0
    else
      match pyFloat? v with
      | some q => .ok q
      | none => .notANumber

/-- `get_remaining(student_name)`. -/
def get_remaining (ws : StudentsWs) (nm : String) : BalRes :=
  match find_student_row ws nm with
  | none => .notFound
  | some r =>
    match cellAt ws r with
    | none => .notFound
    | some c => readCell c

/-- Replace the column-B cell of 0-based row `i` with a written-back number. -/
def updateCellB : List (String × Cell) → Nat → Dec → List (String × Cell)
  | [], _, _ => []
  | p :: rest, 0, v => (p.1, Cell.num v) :: rest
  | p :: rest, Nat.succ n, v => p :: updateCellB rest n v

/-- `set_remaining(student_name, remaining)`; `none` models the
`ValueError` raised when no row matches. -/
def set_remaining (ws : StudentsWs) (nm : String) (v : Dec) : Option StudentsWs :=
  match find_student_row ws nm with
  | none => none
  | some r => some (updateCellB ws (r - 1) v)

/-! ### teacher_students sheet: roster resolution -/

/-- One data row of `teacher_students` survives the scan and yields its
student name iff it has ≥ 3 cells, none of the three stripped cells is
empty, the weekday cell parses as an `int`, and teacher id and weekday
match the query exactly. -/
def rowOk (teacher : String) (wd : Int) (row : List String) : Option String :=
  if row.length < 3 then none
  else
    let tid := pyTrim (row.getD 0 "")
    let name := pyTrim (row.getD 1 "")
    let wd_raw := pyTrim (row.getD 2 "")
    if tid = "" ∨ name = "" ∨ wd_raw = "" then none
    else
      match pyInt? wd_raw with
      | none => none
      | some w => if tid = teacher ∧ w = wd then some name else none

/-- The `out` list of `get_teacher_students_by_weekday`: scan all rows,
skip the header (`i == 0`), keep matches. -/
def scanNames (rows : List (List String)) (teacher : String) (wd : Int) : List String :=
  (rows.drop 1).filterMap (rowOk teacher wd)

/-- The `seen`/`uniq` loop: drop later duplicates, keep first-seen order. -/
def uniqKeepOrder (seen : List String) : List String → List String
  | [] => []
  | s :: rest =>
    if s ∈ seen then uniqKeepOrder seen rest
    else s :: uniqKeepOrder (s :: seen) rest

/-- `get_teacher_students_by_weekday(teacher_line_id, weekday)`. -/
def get_teacher_students_by_weekday (rows : List (List String)) (teacher : String)
    (wd : Int) : List String :=
  uniqKeepOrder [] (scanNames rows teacher wd)

/-- Substring test `kw in s`. -/
def infixCheck (n : List Char) : List Char → Bool
  | [] => n.isEmpty
  | c :: cs => chStarts n (c :: cs) || infixCheck n cs

/-- `filter_students_by_keyword(students, keyword)`. -/
def filter_students_by_keyword (students : List String) (keyword : String) : List String :=
  let kw := pyTrim keyword
  if kw = "" then students
  else students.filter (fun s => infixCheck kw.data s.data)

/-! ### The teachers table and the whole bot state -/

/-- `is_teacher(uid)`: membership of the (already refreshed) authorized-id
set; the 30-second cache refresh only changes *which* set this is, which
every theorem below quantifies over. -/
def is_teacher (teachers : List String) (uid : String) : Bool :=
  teachers.contains uid

/-- All state a text/postback handler can read or write: the in-memory
`PENDING` dict plus the three mutable worksheets. -/
structure BotState where
  pending : PendingMap
  students : StudentsWs
  teacher_students : List (List String)
  log : List LogEntry
deriving DecidableEq

/-- Outbound messages, as structured payloads (the card layout itself is
presentation, external to this core). -/
inductive Reply
  | myId (uid : String)
  | noUserIdHelp
  | contactInfo
  | deny
  | badDayFormat
  | badWeekdayRange
  | noStudents (wd : Int)
  | studentListCard (students : List String) (showSearch : Bool) (weekday : Int)
  | searchPrompt (weekday : Int)
  | searchNoMatch (kw : String) (weekday : Int)
  | lessonCard (student : String)
  | insufficient (student : String) (before used : Dec)
  | deducted (student : String) (lesson : String) (remaining : Dec)
  | absenceNoted (student : String) (remaining : Dec)
  | afterDoneCard (weekday : Int)
  | noUserIdShort
  | deductFailed
  | helpMenu
  | weekdayCard (today : Int)
  | wdParseFailed
  | noRecords
  | recentRecords (hits : List LogEntry)
  | echo (data : String)
deriving DecidableEq

/-- `wd = st.get("weekday") if st else weekday_today_1to7()`. -/
def weekdayOrToday (sOpt : Option Pending) (today : Int) : Int :=
  match sOpt with
  | some s => s.weekday
  | none => today

/-! ### `handle_message`: branch classification and execution -/

/-- The identity-lookup texts of line 444. -/
def isIdQuery (t : String) : Bool :=
  t == "老師報到" || t == "ID" || t == "id" || t == "我的ID" || t == "我的 id" || t == "我的Id"

/-- The teacher gate of line 466: `text.startswith(("上課日:", "選擇學生:",
"堂數:", "搜尋", "搜尋:"))`. -/
def flowGate (t : String) : Bool :=
  pyStartsWith t "上課日:" || pyStartsWith t "選擇學生:" || pyStartsWith t "堂數:" ||
    pyStartsWith t "搜尋" || pyStartsWith t "搜尋:"

/-- Which `handle_message` branch fires, in source order. -/
inductive Branch
  | idQueryB
  | contactB
  | denyB
  | pickDayB (rest : String)
  | enterSearchB (rest : String)
  | searchB (rest : String)
  | pickStudentB (rest : String)
  | lessonB (text : String)
  | fallbackB
deriving DecidableEq

/-- The prefix-dispatch chain of `handle_message`, on the stripped text,
given whether the sender passed the teacher gate. -/
def classify (text : String) (auth : Bool) : Branch :=
  if isIdQuery text then .idQueryB
  else if text == "聯絡教室" then .contactB
  else if flowGate text && !auth then .denyB
  else if pyStartsWith text "上課日:" then .pickDayB (afterColon text)
  else if pyStartsWith text "搜尋學生:" then .enterSearchB (afterColon text)
  else if pyStartsWith text "搜尋:" then .searchB (afterColon text)
  else if pyStartsWith text "選擇學生:" then .pickStudentB (afterColon text)
  else if pyStartsWith text "堂數:" then .lessonB text
  else .fallbackB

/-- Execute one classified branch; a faithful transcription of the branch
bodies of `handle_message` (the `堂數:` branch body is lines 554–613). -/
def runBranch (st : BotState) (uid : String) (b : Branch) (now today : Int) :
    BotState × List Reply :=
  match b with
  | .idQueryB => if uid = "" then (st, [.noUserIdHelp]) else (st, [.myId uid])
  | .contactB => (st, [.contactInfo])
  | .denyB => (st, [.deny])
  | .fallbackB => (st, [.helpMenu])
  | .pickDayB rest =>
    match pyInt? rest with
    | none => (st, [.badDayFormat])
    | some wd =>
      if wd < 1 ∨ 7 < wd then (st, [.badWeekdayRange])
      else
        let pending1 := pending_set st.pending uid "in_day" wd now
        let students_all := get_teacher_students_by_weekday st.teacher_students uid wd
        if students_all = [] then ({ st with pending := pending1 }, [.noStudents wd])
        else
          ({ st with pending := pending1 },
            [.studentListCard (students_all.take 12) (decide (12 < students_all.length)) wd])
  | .enterSearchB rest =>
    let got := pending_get st.pending uid now
    let wd :=
      match pyInt? rest with
      | some w => w
      | none => weekdayOrToday got.2 today
    ({ st with pending := pending_set got.1 uid "searching" wd now }, [.searchPrompt wd])
  | .searchB rest =>
    let got := pending_get st.pending uid now
    let wd := weekdayOrToday got.2 today
    let keyword := pyTrim rest
    let students_all := get_teacher_students_by_weekday st.teacher_students uid wd
    let ms := filter_students_by_keyword students_all keyword
    if ms = [] then ({ st with pending := got.1 }, [.searchNoMatch keyword wd])
    else
      ({ st with pending := got.1 },
        [.studentListCard (ms.take 12) (decide (12 < ms.length)) wd])
  | .pickStudentB rest => (st, [.lessonCard (pyTrim rest)])
  | .lessonB text =>
    match splitTwoStr text ':' with
    | none => (st, [.deductFailed])
    | some (_, name, lesson) =>
      if uid = "" then (st, [.noUserIdShort])
      else if lesson = "請假" then
        match get_remaining st.students name with
        | .ok remaining =>
          let got := pending_get st.pending uid now
          ({ st with
              pending := got.1,
              log := st.log ++ [⟨uid, name, "", "請假", remaining⟩] },
            [.absenceNoted name remaining, .afterDoneCard (weekdayOrToday got.2 today)])
        | _ => (st, [.deductFailed])
      else
        match pyFloat? lesson with
        | none => (st, [.deductFailed])
        | some used =>
          match get_remaining st.students name with
          | .ok before =>
            if round2 (before - used) < 0 then
              (st, [.insufficient name before used])
            else
              match set_remaining st.students name (round2 (before - used)) with
              | none => (st, [.deductFailed])
              | some students1 =>
                let got := pending_get st.pending uid now
                ({ st with
                    pending := got.1,
                    students := students1,
                    log := st.log ++ [⟨uid, name, lesson, "上課", round2 (before - used)⟩] },
                  [.deducted name lesson (round2 (before - used)),
                    .afterDoneCard (weekdayOrToday got.2 today)])
          | _ => (st, [.deductFailed])

/-- `uid` as the branch bodies see it (`getattr(event.source, "user_id", None)`;
`None` behaves exactly like the falsy `""` in every use). -/
def uidOf (uid? : Option String) : String :=
  match uid? with
  | some u => u
  | none => ""

/-- `not uid or (not is_teacher(uid))`, negated: the sender passes the
teacher gate. -/
def authOf (teachers : List String) (uid? : Option String) : Bool :=
  match uid? with
  | none => false
  | some u => if u = "" then false else is_teacher teachers u

/-- `handle_message(event)`: strip the text, classify against the gate,
run the branch.  `now` is the wall-clock second, `today` the Taipei
weekday 1–7. -/
def handle_message (teachers : List String) (st : BotState) (uid? : Option String)
    (rawText : String) (now today : Int) : BotState × List Reply :=
  runBranch st (uidOf uid?) (classify (pyTrim rawText) (authOf teachers uid?)) now today

/-! ### `handle_postback` -/

/-- The `wd` loop of the `action=attendance_day` branch: scan `&`-separated
parts, keep the last `int` parsed from a `wd=` part; any parse failure
aborts the whole loop to `None` (the `except`). -/
def parseWdLoop : List String → Option Int → Option Int
  | [], acc => acc
  | p :: ps, acc =>
    if pyStartsWith p "wd=" then
      match (splitOnceL '=' p.data).bind (fun pr => pyInt? ⟨pr.2⟩) with
      | none => none
      | some w => parseWdLoop ps (some w)
    else parseWdLoop ps acc

def parseWd (data : String) : Option Int :=
  parseWdLoop (pySplitAll data '&') none

/-- `handle_postback(event)`. -/
def handle_postback (teachers : List String) (st : BotState) (uid? : Option String)
    (rawData : String) (now today : Int) : BotState × List Reply :=
  let data := pyTrim rawData
  let uid := uidOf uid?
  if pyStartsWith data "action=attendance" then
    if !authOf teachers uid? then (st, [.deny])
    else if data = "action=attendance" then (st, [.weekdayCard today])
    else if pyStartsWith data "action=attendance_day" then
      match parseWd data with
      | none => (st, [.wdParseFailed])
      | some wd =>
        if wd = 0 ∨ wd < 1 ∨ 7 < wd then (st, [.wdParseFailed])
        else
          let pending1 := pending_set st.pending uid "in_day" wd now
          let students_all := get_teacher_students_by_weekday st.teacher_students uid wd
          ({ st with pending := pending1 },
            [.studentListCard (students_all.take 12) (decide (12 < students_all.length)) wd])
    else (st, [.echo data])
  else if data = "action=records" then
    if !authOf teachers uid? then (st, [.deny])
    else
      let hits := ((st.log.reverse).filter (fun e => pyTrim e.teacher = uid)).take 5
      if hits = [] then (st, [.noRecords]) else (st, [.recentRecords hits])
  else (st, [.echo data])

/-! ### The command codec (UI-button texts and their parsing) -/

/-- The commands constructible by the UI cards / typed by the user. -/
inductive Command
  | pickDay (wd : Int)
  | enterSearch (wd : Int)
  | search (kw : String)
  | pickStudent (name : String)
  | pickLesson (name : String) (lesson : String)
deriving DecidableEq

/-- The exact button/message texts built by the Flex cards
(`flex_weekday_picker_card`, `flex_student_list_card`, `flex_lesson_card`):
plain concatenation, no escaping of the free-text fields. -/
def encodeCommand : Command → String
  | .pickDay wd => "上課日:" ++ toString wd
  | .enterSearch wd => "搜尋學生:" ++ toString wd
  | .search kw => "搜尋:" ++ kw
  | .pickStudent name => "選擇學生:" ++ name
  | .pickLesson name lesson => "堂數:" ++ name ++ ":" ++ lesson

/-- The command-extraction layer of `handle_message`: same prefix dispatch,
same `split`/`strip` calls, yielding the parsed command fields. -/
def decodeCommand (rawText : String) : Option Command :=
  let text := pyTrim rawText
  if pyStartsWith text "上課日:" then
    match pyInt? (afterColon text) with
    | some wd => some (.pickDay wd)
    | none => none
  else if pyStartsWith text "搜尋學生:" then
    match pyInt? (afterColon text) with
    | some wd => some (.enterSearch wd)
    | none => none
  else if pyStartsWith text "搜尋:" then some (.search (pyTrim (afterColon text)))
  else if pyStartsWith text "選擇學生:" then some (.pickStudent (pyTrim (afterColon text)))
  else if pyStartsWith text "堂數:" then
    match splitTwoStr text ':' with
    | some (_, name, lesson) => some (.pickLesson name lesson)
    | none => none
  else none

/-! ### Derived notions used by the claims -/

/-- Every readable balance on the sheet is non-negative. -/
def NonnegBal (ws : StudentsWs) : Prop :=
  ∀ nm b, get_remaining ws nm = .ok b → 0 ≤ b

/-- One inbound text event. -/
structure InEvent where
  uid? : Option String
  text : String
  now : Int
  today : Int

/-- Fold a sequence of inbound text events through `handle_message`. -/
def runEvents (teachers : List String) (st : BotState) : List InEvent → BotState
  | [] => st
  | e :: rest => runEvents teachers (handle_message teachers st e.uid? e.text e.now e.today).1 rest

/-! ### Basic lemmas: strings and dispatch -/

lemma data_append_str (s t : String) : (s ++ t).data = s.data ++ t.data := by
  cases s; cases t; rfl

lemma mk_data (s : String) : String.mk s.data = s := by
  cases s; rfl

lemma lesson_text_data (name lesson : String) :
    ("堂數:" ++ name ++ ":" ++ lesson).data
      = '堂' :: '數' :: ':' :: (name.data ++ ':' :: lesson.data) := by
  simp only [data_append_str, List.append_assoc]
  rfl

lemma chStarts_iff (p : List Char) : ∀ s, chStarts p s = true ↔ ∃ r, s = p ++ r := by
  induction p with
  | nil =>
    intro s
    constructor
    · intro _; exact ⟨s, rfl⟩
    · intro _; rfl
  | cons c cs ih =>
    intro s
    cases s with
    | nil =>
      constructor
      · intro h; exact absurd h (by simp [chStarts])
      · rintro ⟨r, hr⟩; exact List.noConfusion hr
    | cons d ds =>
      constructor
      · intro h
        by_cases hcd : c = d
        · subst hcd
          simp only [chStarts] at h
          rw [if_true] at h
          obtain ⟨r, hr⟩ := (ih ds).mp h
          exact ⟨r, by rw [List.cons_append, hr]⟩
        · simp only [chStarts, if_neg hcd] at h
          exact absurd h (by decide)
      · rintro ⟨r, hr⟩
        rw [List.cons_append] at hr
        injection hr with h1 h2
        subst h1
        simp only [chStarts]
        rw [if_true]
        exact (ih ds).mpr ⟨r, h2⟩

lemma splitOnceL_no_delim (d : Char) (pre suf : List Char) (h : d ∉ pre) :
    splitOnceL d (pre ++ d :: suf) = some (pre, suf) := by
  induction pre with
  | nil => simp [splitOnceL]
  | cons c cs ih =>
    have hcd : ¬ c = d := fun he => h (he ▸ List.mem_cons_self c cs)
    have hih := ih (fun hm => h (List.mem_cons_of_mem _ hm))
    rw [List.cons_append]
    show (if c = d then some ([], cs ++ d :: suf)
      else (splitOnceL d (cs ++ d :: suf)).map (fun p => (c :: p.1, p.2))) = some (c :: cs, suf)
    rw [if_neg hcd, hih]
    rfl

lemma splitTwoStr_lesson (name lesson : String) (hn : ':' ∉ name.data) :
    splitTwoStr ("堂數:" ++ name ++ ":" ++ lesson) ':' = some ("堂數", name, lesson) := by
  unfold splitTwoStr
  rw [lesson_text_data]
  rw [show ('堂' :: '數' :: ':' :: (name.data ++ ':' :: lesson.data))
      = ['堂', '數'] ++ ':' :: (name.data ++ ':' :: lesson.data) from rfl]
  rw [splitOnceL_no_delim ':' ['堂', '數'] (name.data ++ ':' :: lesson.data) (by decide)]
  show (match splitOnceL ':' (name.data ++ ':' :: lesson.data) with
    | none => none
    | some (b, c) => some ((⟨['堂', '數']⟩ : String), (⟨b⟩ : String), (⟨c⟩ : String)))
      = some ("堂數", name, lesson)
  rw [splitOnceL_no_delim ':' name.data lesson.data hn]

lemma classify_eq_lesson (text : String) (rest : List Char)
    (hd : text.data = '堂' :: '數' :: ':' :: rest) :
    classify text true = Branch.lessonB text := by
  obtain ⟨l⟩ := text
  have hl : l = '堂' :: '數' :: ':' :: rest := hd
  subst hl
  rfl

lemma classify_eq_student (text : String) (rest : List Char)
    (hd : text.data = '選' :: '擇' :: '學' :: '生' :: ':' :: rest) :
    classify text true = Branch.pickStudentB (String.mk rest) := by
  obtain ⟨l⟩ := text
  have hl : l = '選' :: '擇' :: '學' :: '生' :: ':' :: rest := hd
  subst hl
  rfl

lemma classify_deny (text : String) (hflow : flowGate text = true) :
    classify text false = Branch.denyB := by
  obtain ⟨l⟩ := text
  unfold flowGate pyStartsWith at hflow
  simp only [Bool.or_eq_true] at hflow
  rcases hflow with (((h | h) | h) | h) | h
  · obtain ⟨r, hr⟩ := (chStarts_iff _ _).mp h
    have hl : l = '上' :: '課' :: '日' :: ':' :: r := hr
    subst hl; rfl
  · obtain ⟨r, hr⟩ := (chStarts_iff _ _).mp h
    have hl : l = '選' :: '擇' :: '學' :: '生' :: ':' :: r := hr
    subst hl; rfl
  · obtain ⟨r, hr⟩ := (chStarts_iff _ _).mp h
    have hl : l = '堂' :: '數' :: ':' :: r := hr
    subst hl; rfl
  · obtain ⟨r, hr⟩ := (chStarts_iff _ _).mp h
    have hl : l = '搜' :: '尋' :: r := hr
    subst hl; rfl
  · obtain ⟨r, hr⟩ := (chStarts_iff _ _).mp h
    have hl : l = '搜' :: '尋' :: ':' :: r := hr
    subst hl; rfl

lemma authOf_true (teachers : List String) (uid : String)
    (hu : uid ≠ "") (ht : is_teacher teachers uid = true) :
    authOf teachers (some uid) = true := by
  simp [authOf, hu, ht]

lemma handle_message_lesson (teachers : List String) (st : BotState) (uid name lesson : String)
    (now today : Int)
    (hu : uid ≠ "") (ht : is_teacher teachers uid = true)
    (htrim : pyTrim ("堂數:" ++ name ++ ":" ++ lesson) = "堂數:" ++ name ++ ":" ++ lesson) :
    handle_message teachers st (some uid) ("堂數:" ++ name ++ ":" ++ lesson) now today
      = runBranch st uid (Branch.lessonB ("堂數:" ++ name ++ ":" ++ lesson)) now today := by
  unfold handle_message
  rw [htrim, authOf_true teachers uid hu ht,
    classify_eq_lesson _ (name.data ++ ':' :: lesson.data) (lesson_text_data name lesson)]
  rfl

/-! ### Lemmas: the students sheet -/

lemma findRowAux_bounds (nm : String) :
    ∀ (l : List (String × Cell)) (i r : Nat), findRowAux nm l i = some r →
      i ≤ r ∧ ∃ p, l.get? (r - i) = some p ∧ pyTrim p.1 = nm := by
  intro l
  induction l with
  | nil => intro i r h; exact absurd h (by simp [findRowAux])
  | cons p rest ih =>
    intro i r h
    simp only [findRowAux] at h
    by_cases hp : pyTrim p.1 = nm
    · rw [if_pos hp] at h
      injection h with h
      subst h
      exact ⟨le_refl i, p, by simp [Nat.sub_self], hp⟩
    · rw [if_neg hp] at h
      obtain ⟨hle, q, hq, hq2⟩ := ih (i + 1) r h
      refine ⟨by omega, q, ?_, hq2⟩
      have hri : r - i = (r - (i + 1)) + 1 := by omega
      rw [hri]
      simpa using hq

lemma findRowAux_map_congr (nm : String) :
    ∀ (l1 l2 : List (String × Cell)) (i : Nat),
      l1.map Prod.fst = l2.map Prod.fst → findRowAux nm l1 i = findRowAux nm l2 i := by
  intro l1
  induction l1 with
  | nil =>
    intro l2 i h
    have hl : l2 = [] := by
      cases l2 with
      | nil => rfl
      | cons q m => exact absurd h (by simp)
    subst hl; rfl
  | cons p rest ih =>
    intro l2 i h
    cases l2 with
    | nil => exact absurd h (by simp)
    | cons q m =>
      simp only [List.map_cons, List.cons.injEq] at h
      obtain ⟨h1, h2⟩ := h
      simp only [findRowAux, h1]
      rw [ih m (i + 1) h2]

lemma updateCellB_map_fst : ∀ (l : List (String × Cell)) (i : Nat) (v : Dec),
    (updateCellB l i v).map Prod.fst = l.map Prod.fst := by
  intro l
  induction l with
  | nil => intro i v; rfl
  | cons p rest ih =>
    intro i v
    cases i with
    | zero => rfl
    | succ n => simp only [updateCellB, List.map_cons]; rw [ih n v]

lemma updateCellB_get_self : ∀ (l : List (String × Cell)) (i : Nat) (v : Dec),
    (updateCellB l i v).get? i = (l.get? i).map (fun p => (p.1, Cell.num v)) := by
  intro l
  induction l with
  | nil => intro i v; cases i <;> rfl
  | cons p rest ih =>
    intro i v
    cases i with
    | zero => rfl
    | succ n =>
      show (p :: updateCellB rest n v).get? (n + 1)
        = ((p :: rest).get? (n + 1)).map (fun p => (p.1, Cell.num v))
      rw [List.get?_cons_succ, List.get?_cons_succ]
      exact ih n v

lemma updateCellB_get_ne : ∀ (l : List (String × Cell)) (i j : Nat) (v : Dec), j ≠ i →
    (updateCellB l i v).get? j = l.get? j := by
  intro l
  induction l with
  | nil => intro i j v _; cases i <;> rfl
  | cons p rest ih =>
    intro i j v hne
    cases i with
    | zero =>
      cases j with
      | zero => exact absurd rfl hne
      | succ k => rfl
    | succ n =>
      cases j with
      | zero => rfl
      | succ k =>
        show (p :: updateCellB rest n v).get? (k + 1) = (p :: rest).get? (k + 1)
        rw [List.get?_cons_succ, List.get?_cons_succ]
        exact ih n k v (fun he => hne (by rw [he]))

lemma find_student_row_update (ws : StudentsWs) (nm : String) (i : Nat) (v : Dec) :
    find_student_row (updateCellB ws i v) nm = find_student_row ws nm := by
  cases ws with
  | nil => rfl
  | cons p rest =>
    cases i with
    | zero => rfl
    | succ n =>
      show findRowAux nm (updateCellB rest n v) 2 = findRowAux nm rest 2
      exact findRowAux_map_congr nm _ _ 2 (updateCellB_map_fst rest n v)

lemma find_some_get (ws : StudentsWs) (nm : String) (r : Nat)
    (h : find_student_row ws nm = some r) :
    2 ≤ r ∧ ∃ p, ws.get? (r - 1) = some p ∧ pyTrim p.1 = nm := by
  cases ws with
  | nil => exact absurd h (by simp [find_student_row])
  | cons hd rest =>
    have h2 : findRowAux nm rest 2 = some r := h
    obtain ⟨hle, p, hp, hp2⟩ := findRowAux_bounds nm rest 2 r h2
    refine ⟨hle, p, ?_, hp2⟩
    have hr1 : r - 1 = (r - 2) + 1 := by omega
    rw [hr1]
    simpa using hp

lemma get_remaining_eq_of_find (ws : StudentsWs) (nm : String) (r : Nat)
    (h : find_student_row ws nm = some r) :
    get_remaining ws nm
      = (match (ws.get? (r - 1)).map Prod.snd with
          | none => BalRes.notFound
          | some c => readCell c) := by
  unfold get_remaining cellAt
  rw [h]

lemma get_remaining_update_self (ws : StudentsWs) (nm : String) (r : Nat) (v : Dec)
    (h : find_student_row ws nm = some r) :
    get_remaining (updateCellB ws (r - 1) v) nm = .ok v := by
  have hf : find_student_row (updateCellB ws (r - 1) v) nm = some r := by
    rw [find_student_row_update]; exact h
  rw [get_remaining_eq_of_find _ nm r hf, updateCellB_get_self]
  obtain ⟨_, p, hp, _⟩ := find_some_get ws nm r h
  rw [hp]
  rfl

lemma set_remaining_of_find (ws : StudentsWs) (nm : String) (r : Nat) (v : Dec)
    (h : find_student_row ws nm = some r) :
    set_remaining ws nm v = some (updateCellB ws (r - 1) v) := by
  unfold set_remaining
  rw [h]

lemma find_of_get_ok (ws : StudentsWs) (nm : String) (b : Dec)
    (h : get_remaining ws nm = .ok b) : ∃ r, find_student_row ws nm = some r := by
  unfold get_remaining at h
  rcases hf : find_student_row ws nm with _ | r
  · rw [hf] at h; exact absurd h (by simp)
  · exact ⟨r, rfl⟩

lemma get_remaining_update_frame (ws : StudentsWs) (nm nm' : String) (r : Nat) (v b : Dec)
    (h : find_student_row ws nm = some r)
    (hg : get_remaining (updateCellB ws (r - 1) v) nm' = .ok b) :
    b = v ∨ get_remaining ws nm' = .ok b := by
  rcases hf : find_student_row ws nm' with _ | r'
  · have hf2 : find_student_row (updateCellB ws (r - 1) v) nm' = none := by
      rw [find_student_row_update]; exact hf
    unfold get_remaining at hg
    rw [hf2] at hg
    have hc : BalRes.notFound = BalRes.ok b := hg
    exact absurd hc (by simp)
  · have hf2 : find_student_row (updateCellB ws (r - 1) v) nm' = some r' := by
      rw [find_student_row_update]; exact hf
    rw [get_remaining_eq_of_find _ nm' r' hf2] at hg
    by_cases he : r' - 1 = r - 1
    · left
      rw [he, updateCellB_get_self] at hg
      obtain ⟨_, p, hp, _⟩ := find_some_get ws nm r h
      rw [hp] at hg
      simp only [Option.map_some'] at hg
      have hv : BalRes.ok v = BalRes.ok b := hg
      injection hv with hv
      exact hv.symm
    · right
      rw [updateCellB_get_ne ws (r - 1) (r' - 1) v he] at hg
      rw [get_remaining_eq_of_find ws nm' r' hf]
      exact hg

/-! ### Lemmas: decimal order and sessions -/

lemma Dec.zero_le_of_not_lt_zero (d : Dec) (h : ¬ d < 0) : 0 ≤ d := by
  show Dec.le 0 d
  have h' : ¬ Dec.lt d 0 := h
  unfold Dec.lt at h'
  unfold Dec.le
  have hm : (0 : Dec).m = 0 := rfl
  have he : (0 : Dec).e = 0 := rfl
  rw [hm, he] at h' ⊢
  simp only [pow_zero, mul_one, zero_mul] at h' ⊢
  omega

lemma nonneg_after_set (ws ws' : StudentsWs) (nm : String) (v : Dec)
    (hset : set_remaining ws nm v = some ws') (hv : 0 ≤ v) (H : NonnegBal ws) :
    NonnegBal ws' := by
  unfold set_remaining at hset
  rcases hf : find_student_row ws nm with _ | r
  · rw [hf] at hset; exact absurd hset (by simp)
  · rw [hf] at hset
    injection hset with hset
    subst hset
    intro nm' b hb
    rcases get_remaining_update_frame ws nm nm' r v b hf hb with hbv | hold
    · rw [hbv]; exact hv
    · exact H nm' b hold

lemma pending_get_fresh (m : PendingMap) (uid : String) (now : Int) (p : Pending)
    (hp : pending_lookup m uid = some p) (hfresh : now - p.ts ≤ PENDING_TIMEOUT_SEC) :
    pending_get m uid now = (m, some p) := by
  unfold pending_get
  rw [hp]
  show (if now - p.ts > PENDING_TIMEOUT_SEC then (pending_erase m uid, none)
    else (m, some p)) = (m, some p)
  rw [if_neg (by omega)]

lemma pending_lookup_set (m : PendingMap) (uid stage : String) (wd now : Int) :
    pending_lookup (pending_set m uid stage wd now) uid = some ⟨stage, wd, now⟩ := by
  unfold pending_lookup pending_set
  simp [List.find?]

lemma pending_lookup_erase (m : PendingMap) (uid : String) :
    pending_lookup (pending_erase m uid) uid = none := by
  unfold pending_lookup pending_erase
  induction m with
  | nil => rfl
  | cons p rest ih =>
    by_cases h : p.1 = uid
    · simpa [h] using ih
    · simpa [List.find?, h] using ih

/-! ### Lemmas: the `堂數:` (pick-lesson) branch -/

lemma runBranch_lesson_success (st : BotState) (uid name lesson : String) (now today : Int)
    (used before : Dec)
    (hu : uid ≠ "") (hn : ':' ∉ name.data)
    (hused : pyFloat? lesson = some used)
    (hbefore : get_remaining st.students name = .ok before)
    (hpos : ¬ round2 (before - used) < 0) :
    ∃ students1,
      set_remaining st.students name (round2 (before - used)) = some students1 ∧
      runBranch st uid (Branch.lessonB ("堂數:" ++ name ++ ":" ++ lesson)) now today
        = ({ st with
              pending := (pending_get st.pending uid now).1,
              students := students1,
              log := st.log ++ [⟨uid, name, lesson, "上課", round2 (before - used)⟩] },
            [Reply.deducted name lesson (round2 (before - used)),
              Reply.afterDoneCard (weekdayOrToday (pending_get st.pending uid now).2 today)])
      ∧ get_remaining students1 name = .ok (round2 (before - used)) := by
  obtain ⟨r, hr⟩ := find_of_get_ok st.students name before hbefore
  have hq : lesson ≠ "請假" := by
    intro he
    have hnone : pyFloat? "請假" = none := by decide
    rw [he, hnone] at hused
    exact Option.noConfusion hused
  refine ⟨updateCellB st.students (r - 1) (round2 (before - used)),
    set_remaining_of_find _ _ _ _ hr, ?_, get_remaining_update_self _ _ _ _ hr⟩
  simp only [runBranch, splitTwoStr_lesson name lesson hn, if_neg hu, if_neg hq, hused,
    hbefore, if_neg hpos, set_remaining_of_find _ _ _ _ hr]

lemma runBranch_lesson_insufficient (st : BotState) (uid name lesson : String) (now today : Int)
    (used before : Dec)
    (hu : uid ≠ "") (hn : ':' ∉ name.data)
    (hused : pyFloat? lesson = some used)
    (hbefore : get_remaining st.students name = .ok before)
    (hneg : round2 (before - used) < 0) :
    runBranch st uid (Branch.lessonB ("堂數:" ++ name ++ ":" ++ lesson)) now today
      = (st, [Reply.insufficient name before used]) := by
  have hq : lesson ≠ "請假" := by
    intro he
    have hnone : pyFloat? "請假" = none := by decide
    rw [he, hnone] at hused
    exact Option.noConfusion hused
  simp only [runBranch, splitTwoStr_lesson name lesson hn, if_neg hu, if_neg hq, hused,
    hbefore, if_pos hneg]

lemma runBranch_lesson_absence (st : BotState) (uid name : String) (now today : Int)
    (remaining : Dec)
    (hu : uid ≠ "") (hn : ':' ∉ name.data)
    (hrem : get_remaining st.students name = .ok remaining) :
    runBranch st uid (Branch.lessonB ("堂數:" ++ name ++ ":" ++ "請假")) now today
      = ({ st with
            pending := (pending_get st.pending uid now).1,
            log := st.log ++ [⟨uid, name, "", "請假", remaining⟩] },
          [Reply.absenceNoted name remaining,
            Reply.afterDoneCard (weekdayOrToday (pending_get st.pending uid now).2 today)]) := by
  simp only [runBranch, splitTwoStr_lesson name "請假" hn, if_neg hu, if_true, hrem]

/-! ### The balance floor is preserved by every event -/

lemma runBranch_students (st : BotState) (uid : String) (b : Branch) (now today : Int) :
    (runBranch st uid b now today).1.students = st.students
    ∨ ∃ name v, ¬ v < 0 ∧
        set_remaining st.students name v = some ((runBranch st uid b now today).1.students) := by
  cases b with
  | idQueryB => left; by_cases h : uid = "" <;> simp [runBranch, h]
  | contactB => left; rfl
  | denyB => left; rfl
  | fallbackB => left; rfl
  | pickStudentB rest => left; rfl
  | enterSearchB rest => left; rfl
  | pickDayB rest =>
    left
    unfold runBranch
    dsimp only
    rcases hw : pyInt? rest with _ | wd
    · rfl
    · dsimp only
      split_ifs <;> rfl
  | searchB rest =>
    left
    unfold runBranch
    dsimp only
    split_ifs <;> rfl
  | lessonB text =>
    unfold runBranch
    dsimp only
    rcases h2 : splitTwoStr text ':' with _ | ⟨a, name, lesson⟩
    · left; rfl
    · dsimp only
      by_cases hu2 : uid = ""
      · left; rw [if_pos hu2]
      rw [if_neg hu2]
      by_cases hq : lesson = "請假"
      · rw [if_pos hq]
        rcases hg : get_remaining st.students name with q | _ | _ <;> left <;> rfl
      rw [if_neg hq]
      rcases hf : pyFloat? lesson with _ | used
      · left; rfl
      dsimp only
      rcases hg : get_remaining st.students name with before | _ | _
      · dsimp only
        by_cases hlt : round2 (before - used) < 0
        · left; rw [if_pos hlt]
        rw [if_neg hlt]
        rcases hs : set_remaining st.students name (round2 (before - used)) with _ | ws1
        · left; rfl
        · right
          exact ⟨name, round2 (before - used), hlt, by rw [hs]⟩
      · left; rfl
      · left; rfl

lemma runBranch_nonneg (st : BotState) (uid : String) (b : Branch) (now today : Int)
    (H : NonnegBal st.students) :
    NonnegBal (runBranch st uid b now today).1.students := by
  rcases runBranch_students st uid b now today with h | ⟨name, v, hv, hset⟩
  · rw [h]; exact H
  · exact nonneg_after_set _ _ _ _ hset (Dec.zero_le_of_not_lt_zero v hv) H

lemma handle_message_nonneg (teachers : List String) (st : BotState) (uid? : Option String)
    (t : String) (now today : Int) (H : NonnegBal st.students) :
    NonnegBal (handle_message teachers st uid? t now today).1.students := by
  unfold handle_message
  exact runBranch_nonneg st (uidOf uid?) (classify (pyTrim t) (authOf teachers uid?)) now today H

lemma runEvents_nonneg (teachers : List String) :
    ∀ (evs : List InEvent) (st : BotState), NonnegBal st.students →
      NonnegBal (runEvents teachers st evs).students := by
  intro evs
  induction evs with
  | nil => intro st H; exact H
  | cons e rest ih =>
    intro st H
    exact ih _ (handle_message_nonneg teachers st e.uid? e.text e.now e.today H)

/-! ### Lemmas: the command codec -/

lemma student_text_data (name : String) :
    ("選擇學生:" ++ name).data = '選' :: '擇' :: '學' :: '生' :: ':' :: name.data := by
  rw [data_append_str]
  rfl

lemma search_text_data (kw : String) :
    ("搜尋:" ++ kw).data = '搜' :: '尋' :: ':' :: kw.data := by
  rw [data_append_str]
  rfl

lemma decodeCommand_lesson_shape (text : String) (rest : List Char)
    (hd : text.data = '堂' :: '數' :: ':' :: rest) (htrim : pyTrim text = text) :
    decodeCommand text
      = (match splitTwoStr text ':' with
          | some (_, n2, l2) => some (Command.pickLesson n2 l2)
          | none => none) := by
  unfold decodeCommand
  rw [htrim]
  obtain ⟨l⟩ := text
  have hl : l = '堂' :: '數' :: ':' :: rest := hd
  subst hl
  rfl

lemma decodeCommand_student_shape (text : String) (rest : List Char)
    (hd : text.data = '選' :: '擇' :: '學' :: '生' :: ':' :: rest) (htrim : pyTrim text = text) :
    decodeCommand text = some (Command.pickStudent (pyTrim (String.mk rest))) := by
  unfold decodeCommand
  rw [htrim]
  obtain ⟨l⟩ := text
  have hl : l = '選' :: '擇' :: '學' :: '生' :: ':' :: rest := hd
  subst hl
  rfl

lemma decodeCommand_search_shape (text : String) (rest : List Char)
    (hd : text.data = '搜' :: '尋' :: ':' :: rest) (htrim : pyTrim text = text) :
    decodeCommand text = some (Command.search (pyTrim (String.mk rest))) := by
  unfold decodeCommand
  rw [htrim]
  obtain ⟨l⟩ := text
  have hl : l = '搜' :: '尋' :: ':' :: rest := hd
  subst hl
  rfl

lemma decode_encode_pickLesson (name lesson : String) (hn : ':' ∉ name.data)
    (htrim : pyTrim ("堂數:" ++ name ++ ":" ++ lesson) = "堂數:" ++ name ++ ":" ++ lesson) :
    decodeCommand (encodeCommand (Command.pickLesson name lesson))
      = some (Command.pickLesson name lesson) := by
  show decodeCommand ("堂數:" ++ name ++ ":" ++ lesson) = _
  rw [decodeCommand_lesson_shape _ _ (lesson_text_data name lesson) htrim,
    splitTwoStr_lesson name lesson hn]

lemma decode_encode_pickStudent (name : String)
    (hs : pyTrim name = name)
    (htrim : pyTrim ("選擇學生:" ++ name) = "選擇學生:" ++ name) :
    decodeCommand (encodeCommand (Command.pickStudent name))
      = some (Command.pickStudent name) := by
  show decodeCommand ("選擇學生:" ++ name) = _
  rw [decodeCommand_student_shape _ _ (student_text_data name) htrim, mk_data, hs]

lemma decode_encode_search (kw : String)
    (hs : pyTrim kw = kw)
    (htrim : pyTrim ("搜尋:" ++ kw) = "搜尋:" ++ kw) :
    decodeCommand (encodeCommand (Command.search kw)) = some (Command.search kw) := by
  show decodeCommand ("搜尋:" ++ kw) = _
  rw [decodeCommand_search_shape _ _ (search_text_data kw) htrim, mk_data, hs]

/-! ### Lemmas: denial of unauthorized actors -/

lemma handle_message_deny (teachers : List String) (st : BotState) (uid? : Option String)
    (rawText : String) (now today : Int)
    (hauth : authOf teachers uid? = false)
    (hflow : flowGate (pyTrim rawText) = true) :
    handle_message teachers st uid? rawText now today = (st, [Reply.deny]) := by
  unfold handle_message
  rw [hauth, classify_deny _ hflow]
  rfl

lemma handle_postback_deny (teachers : List String) (st : BotState) (uid? : Option String)
    (rawData : String) (now today : Int)
    (hauth : authOf teachers uid? = false)
    (hpb : pyStartsWith (pyTrim rawData) "action=attendance" = true
      ∨ pyTrim rawData = "action=records") :
    handle_postback teachers st uid? rawData now today = (st, [Reply.deny]) := by
  unfold handle_postback
  dsimp only
  rcases hpb with h | h
  · rw [h, hauth]
    rfl
  · rw [h, hauth]
    rfl

lemma handle_message_pickStudent (teachers : List String) (st : BotState)
    (uid name : String) (now today : Int)
    (hu : uid ≠ "") (ht : is_teacher teachers uid = true)
    (htrim : pyTrim ("選擇學生:" ++ name) = "選擇學生:" ++ name) :
    handle_message teachers st (some uid) ("選擇學生:" ++ name) now today
      = (st, [Reply.lessonCard (pyTrim name)]) := by
  unfold handle_message
  rw [htrim, authOf_true teachers uid hu ht,
    classify_eq_student _ name.data (student_text_data name)]
  show (st, [Reply.lessonCard (pyTrim (String.mk name.data))]) = _
  rw [mk_data]

/-! ### Lemmas: the roster scan -/

lemma uniqKeepOrder_sublist (l : List String) : ∀ seen, (uniqKeepOrder seen l).Sublist l := by
  induction l with
  | nil => intro seen; simp [uniqKeepOrder]
  | cons s rest ih =>
    intro seen
    unfold uniqKeepOrder
    by_cases h : s ∈ seen
    · rw [if_pos h]; exact (ih seen).cons s
    · rw [if_neg h]; exact (ih (s :: seen)).cons₂ s

lemma uniqKeepOrder_not_mem_seen (l : List String) :
    ∀ seen x, x ∈ uniqKeepOrder seen l → x ∉ seen := by
  induction l with
  | nil => intro seen x hx; exact absurd hx (by simp [uniqKeepOrder])
  | cons s rest ih =>
    intro seen x hx
    unfold uniqKeepOrder at hx
    by_cases h : s ∈ seen
    · rw [if_pos h] at hx; exact ih seen x hx
    · rw [if_neg h] at hx
      rcases List.mem_cons.mp hx with he | hm
      · subst he; exact h
      · intro hs
        exact (ih (s :: seen) x hm) (List.mem_cons_of_mem _ hs)

lemma uniqKeepOrder_nodup (l : List String) : ∀ seen, (uniqKeepOrder seen l).Nodup := by
  induction l with
  | nil => intro seen; simp [uniqKeepOrder]
  | cons s rest ih =>
    intro seen
    unfold uniqKeepOrder
    by_cases h : s ∈ seen
    · rw [if_pos h]; exact ih seen
    · rw [if_neg h]
      refine List.nodup_cons.mpr ⟨?_, ih (s :: seen)⟩
      intro hmem
      exact uniqKeepOrder_not_mem_seen rest (s :: seen) s hmem (List.mem_cons_self s seen)

lemma uniqKeepOrder_mem (l : List String) :
    ∀ seen x, x ∈ uniqKeepOrder seen l ↔ (x ∈ l ∧ x ∉ seen) := by
  induction l with
  | nil => intro seen x; simp [uniqKeepOrder]
  | cons s rest ih =>
    intro seen x
    unfold uniqKeepOrder
    by_cases h : s ∈ seen
    · rw [if_pos h, ih seen x]
      constructor
      · rintro ⟨hm, hs⟩; exact ⟨List.mem_cons_of_mem _ hm, hs⟩
      · rintro ⟨hm, hs⟩
        rcases List.mem_cons.mp hm with he | hm2
        · subst he; exact absurd h hs
        · exact ⟨hm2, hs⟩
    · rw [if_neg h]
      constructor
      · intro hx
        rcases List.mem_cons.mp hx with he | hm
        · subst he; exact ⟨List.mem_cons_self _ _, h⟩
        · obtain ⟨h1, h2⟩ := (ih (s :: seen) x).mp hm
          exact ⟨List.mem_cons_of_mem _ h1, fun hs => h2 (List.mem_cons_of_mem _ hs)⟩
      · rintro ⟨hm, hs⟩
        rcases List.mem_cons.mp hm with he | hm2
        · subst he; exact List.mem_cons_self _ _
        · by_cases hxs : x = s
          · subst hxs; exact List.mem_cons_self _ _
          · refine List.mem_cons_of_mem _ ((ih (s :: seen) x).mpr ⟨hm2, ?_⟩)
            intro hx2
            rcases List.mem_cons.mp hx2 with h3 | h4
            · exact hxs h3
            · exact hs h4

lemma rowOk_some (teacher : String) (wd : Int) (row : List String) (nm : String)
    (h : rowOk teacher wd row = some nm) :
    3 ≤ row.length ∧ pyTrim (row.getD 0 "") = teacher ∧ pyTrim (row.getD 1 "") = nm
      ∧ pyInt? (pyTrim (row.getD 2 "")) = some wd := by
  unfold rowOk at h
  dsimp only at h
  by_cases h1 : row.length < 3
  · rw [if_pos h1] at h; exact absurd h (by simp)
  rw [if_neg h1] at h
  by_cases h2 : pyTrim (row.getD 0 "") = "" ∨ pyTrim (row.getD 1 "") = ""
    ∨ pyTrim (row.getD 2 "") = ""
  · rw [if_pos h2] at h; exact absurd h (by simp)
  rw [if_neg h2] at h
  rcases hw : pyInt? (pyTrim (row.getD 2 "")) with _ | w
  · rw [hw] at h; exact absurd h (by simp)
  rw [hw] at h
  dsimp only at h
  by_cases h3 : pyTrim (row.getD 0 "") = teacher ∧ w = wd
  · rw [if_pos h3] at h
    injection h with h
    exact ⟨by omega, h3.1, h, congrArg some h3.2⟩
  · rw [if_neg h3] at h; exact absurd h (by simp)

/-! ### Concrete fixtures for the witnesses -/

lemma NonnegBal_nil : NonnegBal [] := by
  intro nm b hb
  have hc : BalRes.notFound = BalRes.ok b := hb
  exact absurd hc (by simp)

/-- students sheet with header row and one subject "Amy" at balance 2.0. -/
def wsA : StudentsWs := [("student_name", Cell.str "remaining"), ("Amy", Cell.str "2.0")]

def stA : BotState := ⟨[], wsA, [], []⟩

/-- students sheet with "Amy" at balance 0.5. -/
def wsB : StudentsWs := [("student_name", Cell.str "remaining"), ("Amy", Cell.str "0.5")]

def stB : BotState := ⟨[], wsB, [], []⟩

/-- A state with a live session for teacher "T" stamped at second 1000. -/
def stC4 : BotState :=
  ⟨[("T", ⟨"in_day", 3, 1000⟩)],
    [("student_name", Cell.str "remaining"), ("Amy", Cell.str "2")], [], []⟩

/-! ### The claims -/

/-- C1: whenever `round(before - amount, 2)` is negative, the `堂數:` branch
aborts before `set_remaining` and `append_log`, leaving the whole state
unchanged and replying with the current and requested amounts; and across
arbitrary event sequences a store whose readable balances are non-negative
stays non-negative. -/
theorem C1_insufficient_aborts_and_balance_floor
    (teachers : List String) (st : BotState) (uid name lesson : String)
    (now today : Int) (used before : Dec)
    (hu : uid ≠ "") (ht : is_teacher teachers uid = true)
    (hn : ':' ∉ name.data)
    (htrim : pyTrim ("堂數:" ++ name ++ ":" ++ lesson) = "堂數:" ++ name ++ ":" ++ lesson)
    (hused : pyFloat? lesson = some used)
    (hbefore : get_remaining st.students name = BalRes.ok before)
    (hneg : round2 (before - used) < 0) :
    handle_message teachers st (some uid) ("堂數:" ++ name ++ ":" ++ lesson) now today
      = (st, [Reply.insufficient name before used])
    ∧ ∀ (st2 : BotState) (evs : List InEvent), NonnegBal st2.students →
        NonnegBal (runEvents teachers st2 evs).students := by
  constructor
  · rw [handle_message_lesson teachers st uid name lesson now today hu ht htrim]
    exact runBranch_lesson_insufficient st uid name lesson now today used before
      hu hn hused hbefore hneg
  · intro st2 evs H
    exact runEvents_nonneg teachers evs st2 H

theorem C1_insufficient_aborts_and_balance_floor_witness :
    handle_message ["T"] stB (some "T") ("堂數:" ++ "Amy" ++ ":" ++ "1") 0 1
      = (stB, [Reply.insufficient "Amy" ⟨5, 1⟩ ⟨1, 0⟩])
    ∧ NonnegBal (runEvents ["T"] (⟨[], [], [], []⟩ : BotState) []).students := by
  have h := C1_insufficient_aborts_and_balance_floor ["T"] stB "T" "Amy" "1" 0 1 ⟨1, 0⟩ ⟨5, 1⟩
    (by decide) (by decide) (by decide) (by decide) (by decide) (by decide) (by decide)
  exact ⟨h.1, h.2 ⟨[], [], [], []⟩ [] NonnegBal_nil⟩

/-- C2 counterexample: the button text for a subject whose name contains the
`:` delimiter does not decode back to the same command — there is no
percent-encoding, and the `text.split(":", 2)` parse cuts the name at the
delimiter. -/
theorem C2_roundtrip_counterexample :
    decodeCommand (encodeCommand (Command.pickLesson "A:B" "1"))
      ≠ some (Command.pickLesson "A:B" "1")
    ∧ decodeCommand (encodeCommand (Command.pickLesson "A:B" "1"))
      = some (Command.pickLesson "A" "B:1") := by
  decide

/-- C2 (amended): field values are carried verbatim (no percent-encoding),
so `decode(encode(c)) = c` holds exactly for benign values: a pick-lesson
command whose subject name contains no `:` and whose encoded text is
whitespace-trim-stable, a pick-student command whose name is trim-stable
(such names may even contain `:`), and a trim-stable search keyword;
non-ASCII text round-trips fine.  Names containing the delimiter do not
survive the pick-lesson round trip. -/
theorem C2_roundtrip_amended (n1 l1 n2 kw : String)
    (hn1 : ':' ∉ n1.data)
    (ht1 : pyTrim ("堂數:" ++ n1 ++ ":" ++ l1) = "堂數:" ++ n1 ++ ":" ++ l1)
    (hn2 : pyTrim n2 = n2)
    (ht2 : pyTrim ("選擇學生:" ++ n2) = "選擇學生:" ++ n2)
    (hk : pyTrim kw = kw)
    (ht3 : pyTrim ("搜尋:" ++ kw) = "搜尋:" ++ kw) :
    decodeCommand (encodeCommand (Command.pickLesson n1 l1)) = some (Command.pickLesson n1 l1)
    ∧ decodeCommand (encodeCommand (Command.pickStudent n2)) = some (Command.pickStudent n2)
    ∧ decodeCommand (encodeCommand (Command.search kw)) = some (Command.search kw) :=
  ⟨decode_encode_pickLesson n1 l1 hn1 ht1, decode_encode_pickStudent n2 hn2 ht2,
    decode_encode_search kw hk ht3⟩

theorem C2_roundtrip_amended_witness :
    decodeCommand (encodeCommand (Command.pickLesson "王小明" "1.5"))
      = some (Command.pickLesson "王小明" "1.5")
    ∧ decodeCommand (encodeCommand (Command.pickStudent "王:美"))
      = some (Command.pickStudent "王:美")
    ∧ decodeCommand (encodeCommand (Command.search "王"))
      = some (Command.search "王") :=
  C2_roundtrip_amended "王小明" "1.5" "王:美" "王"
    (by decide) (by decide) (by decide) (by decide) (by decide) (by decide)

/-- C3: a sufficient deduction writes back exactly `round(before - amount, 2)`
and appends exactly one log row with that amount, status 上課 (attended) and
the resulting balance; re-reading the subject yields the new balance. -/
theorem C3_deduction_success
    (teachers : List String) (st : BotState) (uid name lesson : String)
    (now today : Int) (used before : Dec)
    (hu : uid ≠ "") (ht : is_teacher teachers uid = true)
    (hn : ':' ∉ name.data)
    (htrim : pyTrim ("堂數:" ++ name ++ ":" ++ lesson) = "堂數:" ++ name ++ ":" ++ lesson)
    (hused : pyFloat? lesson = some used)
    (hbefore : get_remaining st.students name = BalRes.ok before)
    (hpos : ¬ round2 (before - used) < 0) :
    ∃ students1,
      set_remaining st.students name (round2 (before - used)) = some students1 ∧
      handle_message teachers st (some uid) ("堂數:" ++ name ++ ":" ++ lesson) now today
        = ({ st with
              pending := (pending_get st.pending uid now).1,
              students := students1,
              log := st.log ++ [⟨uid, name, lesson, "上課", round2 (before - used)⟩] },
            [Reply.deducted name lesson (round2 (before - used)),
              Reply.afterDoneCard (weekdayOrToday (pending_get st.pending uid now).2 today)])
      ∧ get_remaining students1 name = BalRes.ok (round2 (before - used)) := by
  rw [handle_message_lesson teachers st uid name lesson now today hu ht htrim]
  exact runBranch_lesson_success st uid name lesson now today used before
    hu hn hused hbefore hpos

theorem C3_deduction_success_witness :
    ∃ students1,
      set_remaining stA.students "Amy" (round2 ((⟨2, 0⟩ : Dec) - ⟨15, 1⟩)) = some students1 ∧
      handle_message ["T"] stA (some "T") ("堂數:" ++ "Amy" ++ ":" ++ "1.5") 0 1
        = ({ stA with
              pending := (pending_get stA.pending "T" 0).1,
              students := students1,
              log := stA.log ++ [⟨"T", "Amy", "1.5", "上課", round2 ((⟨2, 0⟩ : Dec) - ⟨15, 1⟩)⟩] },
            [Reply.deducted "Amy" "1.5" (round2 ((⟨2, 0⟩ : Dec) - ⟨15, 1⟩)),
              Reply.afterDoneCard (weekdayOrToday (pending_get stA.pending "T" 0).2 1)])
      ∧ get_remaining students1 "Amy" = BalRes.ok (round2 ((⟨2, 0⟩ : Dec) - ⟨15, 1⟩)) :=
  C3_deduction_success ["T"] stA "T" "Amy" "1.5" 0 1 ⟨15, 1⟩ ⟨2, 0⟩
    (by decide) (by decide) (by decide) (by decide) (by decide) (by decide) (by decide)

/-- C4 counterexample: at a concrete state with a live session, a committed
deduction (the log row is appended) leaves the actor's session present and
unchanged — the claim that the session is cleared after a committed
deduction is false (`pending_clear` is never invoked by any handler). -/
theorem C4_clear_counterexample :
    (handle_message ["T"] stC4 (some "T") "堂數:Amy:1.5" 1100 5).1.log
      = [⟨"T", "Amy", "1.5", "上課", ⟨5, 1⟩⟩]
    ∧ pending_lookup (handle_message ["T"] stC4 (some "T") "堂數:Amy:1.5" 1100 5).1.pending "T"
      = some ⟨"in_day", 3, 1000⟩ := by
  decide

/-- C4 (amended): after a committed deduction the actor's session is
retained, not cleared — the weekday is deliberately kept for the
繼續點名 (continue) card; the session store is touched only by the lazy
expiry check inside `pending_get`, so an unexpired session survives
verbatim. -/
theorem C4_session_retained
    (teachers : List String) (st : BotState) (uid name lesson : String)
    (now today : Int) (used before : Dec) (p : Pending)
    (hu : uid ≠ "") (ht : is_teacher teachers uid = true)
    (hn : ':' ∉ name.data)
    (htrim : pyTrim ("堂數:" ++ name ++ ":" ++ lesson) = "堂數:" ++ name ++ ":" ++ lesson)
    (hused : pyFloat? lesson = some used)
    (hbefore : get_remaining st.students name = BalRes.ok before)
    (hpos : ¬ round2 (before - used) < 0)
    (hp : pending_lookup st.pending uid = some p)
    (hfresh : now - p.ts ≤ PENDING_TIMEOUT_SEC) :
    ∃ students1,
      set_remaining st.students name (round2 (before - used)) = some students1 ∧
      handle_message teachers st (some uid) ("堂數:" ++ name ++ ":" ++ lesson) now today
        = ({ st with
              pending := st.pending,
              students := students1,
              log := st.log ++ [⟨uid, name, lesson, "上課", round2 (before - used)⟩] },
            [Reply.deducted name lesson (round2 (before - used)),
              Reply.afterDoneCard p.weekday])
      ∧ pending_lookup
          (handle_message teachers st (some uid) ("堂數:" ++ name ++ ":" ++ lesson) now today).1.pending
          uid = some p := by
  have hlesson := handle_message_lesson teachers st uid name lesson now today hu ht htrim
  obtain ⟨students1, hset, heq, _⟩ :=
    runBranch_lesson_success st uid name lesson now today used before hu hn hused hbefore hpos
  have hpg : pending_get st.pending uid now = (st.pending, some p) :=
    pending_get_fresh st.pending uid now p hp hfresh
  rw [hpg] at heq
  refine ⟨students1, hset, ?_, ?_⟩
  · rw [hlesson]
    exact heq
  · rw [hlesson, heq]
    exact hp

theorem C4_session_retained_witness :
    ∃ students1,
      set_remaining stC4.students "Amy" (round2 ((⟨2, 0⟩ : Dec) - ⟨15, 1⟩)) = some students1 ∧
      handle_message ["T"] stC4 (some "T") ("堂數:" ++ "Amy" ++ ":" ++ "1.5") 1100 5
        = ({ stC4 with
              pending := stC4.pending,
              students := students1,
              log := stC4.log ++ [⟨"T", "Amy", "1.5", "上課", round2 ((⟨2, 0⟩ : Dec) - ⟨15, 1⟩)⟩] },
            [Reply.deducted "Amy" "1.5" (round2 ((⟨2, 0⟩ : Dec) - ⟨15, 1⟩)),
              Reply.afterDoneCard (3 : Int)])
      ∧ pending_lookup
          (handle_message ["T"] stC4 (some "T") ("堂數:" ++ "Amy" ++ ":" ++ "1.5") 1100 5).1.pending
          "T" = some ⟨"in_day", 3, 1000⟩ :=
  C4_session_retained ["T"] stC4 "T" "Amy" "1.5" 1100 5 ⟨15, 1⟩ ⟨2, 0⟩ ⟨"in_day", 3, 1000⟩
    (by decide) (by decide) (by decide) (by decide) (by decide) (by decide) (by decide)
    (by decide) (by decide)

/-- C5: recording an absence (請假) leaves the students sheet untouched and
appends exactly one log row with empty amount, status 請假 (absent) and the
unchanged balance. -/
theorem C5_absence_no_mutation
    (teachers : List String) (st : BotState) (uid name : String)
    (now today : Int) (remaining : Dec)
    (hu : uid ≠ "") (ht : is_teacher teachers uid = true)
    (hn : ':' ∉ name.data)
    (htrim : pyTrim ("堂數:" ++ name ++ ":" ++ "請假") = "堂數:" ++ name ++ ":" ++ "請假")
    (hrem : get_remaining st.students name = BalRes.ok remaining) :
    handle_message teachers st (some uid) ("堂數:" ++ name ++ ":" ++ "請假") now today
      = ({ st with
            pending := (pending_get st.pending uid now).1,
            log := st.log ++ [⟨uid, name, "", "請假", remaining⟩] },
          [Reply.absenceNoted name remaining,
            Reply.afterDoneCard (weekdayOrToday (pending_get st.pending uid now).2 today)])
    ∧ (handle_message teachers st (some uid) ("堂數:" ++ name ++ ":" ++ "請假") now today).1.students
        = st.students := by
  have heq : handle_message teachers st (some uid) ("堂數:" ++ name ++ ":" ++ "請假") now today
      = ({ st with
            pending := (pending_get st.pending uid now).1,
            log := st.log ++ [⟨uid, name, "", "請假", remaining⟩] },
          [Reply.absenceNoted name remaining,
            Reply.afterDoneCard (weekdayOrToday (pending_get st.pending uid now).2 today)]) := by
    rw [handle_message_lesson teachers st uid name "請假" now today hu ht htrim]
    exact runBranch_lesson_absence st uid name now today remaining hu hn hrem
  exact ⟨heq, by rw [heq]⟩

theorem C5_absence_no_mutation_witness :
    handle_message ["T"] stA (some "T") ("堂數:" ++ "Amy" ++ ":" ++ "請假") 0 1
      = ({ stA with
            pending := (pending_get stA.pending "T" 0).1,
            log := stA.log ++ [⟨"T", "Amy", "", "請假", ⟨2, 0⟩⟩] },
          [Reply.absenceNoted "Amy" ⟨2, 0⟩,
            Reply.afterDoneCard (weekdayOrToday (pending_get stA.pending "T" 0).2 1)])
    ∧ (handle_message ["T"] stA (some "T") ("堂數:" ++ "Amy" ++ ":" ++ "請假") 0 1).1.students
        = stA.students :=
  C5_absence_no_mutation ["T"] stA "T" "Amy" 0 1 ⟨2, 0⟩
    (by decide) (by decide) (by decide) (by decide) (by decide)

/-- Assignment rows for the C6 witness: a header, a matching row, a row with
a non-integer weekday, a duplicate, a row on another weekday and a row of
another teacher. -/
def rowsC6 : List (List String) :=
  [["teacher_line_id", "student_name", "weekday"],
    ["T", "Amy", "3"], ["T", "Bob", "x"], ["T", "Amy", "3"],
    ["T", "Cara", "2"], ["U", "Dan", "3"]]

/-- C6: for a weekday in the 1–7 domain the roster is the deduplicated
(first occurrence wins) scan of the assignment rows behind the header:
it has no duplicates, is a subsequence of the scan (so first-seen order is
preserved), contains exactly the scanned matches, and every member comes
from a well-formed row — at least three cells, exact teacher match, and a
weekday cell that parses as an integer in 1–7; malformed rows are merely
skipped. -/
theorem C6_roster_resolution (rows : List (List String)) (teacher : String) (wd : Int)
    (h1 : 1 ≤ wd) (h7 : wd ≤ 7) :
    get_teacher_students_by_weekday rows teacher wd
      = uniqKeepOrder [] (scanNames rows teacher wd)
    ∧ (get_teacher_students_by_weekday rows teacher wd).Nodup
    ∧ (get_teacher_students_by_weekday rows teacher wd).Sublist (scanNames rows teacher wd)
    ∧ (∀ nm, nm ∈ get_teacher_students_by_weekday rows teacher wd
        ↔ nm ∈ scanNames rows teacher wd)
    ∧ (∀ nm, nm ∈ get_teacher_students_by_weekday rows teacher wd →
        ∃ row ∈ rows.drop 1, 3 ≤ row.length ∧ pyTrim (row.getD 0 "") = teacher
          ∧ pyTrim (row.getD 1 "") = nm
          ∧ ∃ w, pyInt? (pyTrim (row.getD 2 "")) = some w ∧ 1 ≤ w ∧ w ≤ 7) := by
  have hmem : ∀ nm, nm ∈ get_teacher_students_by_weekday rows teacher wd
      ↔ nm ∈ scanNames rows teacher wd := by
    intro nm
    unfold get_teacher_students_by_weekday
    rw [uniqKeepOrder_mem]
    simp
  refine ⟨rfl, uniqKeepOrder_nodup _ [], uniqKeepOrder_sublist _ [], hmem, ?_⟩
  intro nm hm
  have hm2 : nm ∈ (rows.drop 1).filterMap (rowOk teacher wd) := (hmem nm).mp hm
  obtain ⟨row, hrow, hok⟩ := List.mem_filterMap.mp hm2
  obtain ⟨hl, hteq, hname, hint⟩ := rowOk_some teacher wd row nm hok
  exact ⟨row, hrow, hl, hteq, hname, wd, hint, h1, h7⟩

theorem C6_roster_resolution_witness :
    get_teacher_students_by_weekday rowsC6 "T" 3 = ["Amy"]
    ∧ (get_teacher_students_by_weekday rowsC6 "T" 3).Nodup
    ∧ (get_teacher_students_by_weekday rowsC6 "T" 3).Sublist (scanNames rowsC6 "T" 3) :=
  ⟨by decide, (C6_roster_resolution rowsC6 "T" 3 (by decide) (by decide)).2.1,
    (C6_roster_resolution rowsC6 "T" 3 (by decide) (by decide)).2.2.1⟩

/-- C7: an actor outside the authorization set who sends any flow-gated
text event (上課日:/選擇學生:/堂數:/搜尋…) or any attendance/records
postback gets only the "teachers only" denial and the entire state —
sessions included — is unchanged. -/
theorem C7_unauthorized_denied
    (teachers : List String) (st st2 : BotState) (uid? uid2? : Option String)
    (rawText rawData : String) (now today n2 t2 : Int)
    (hauth : authOf teachers uid? = false)
    (hauth2 : authOf teachers uid2? = false)
    (hflow : flowGate (pyTrim rawText) = true)
    (hpb : pyStartsWith (pyTrim rawData) "action=attendance" = true
      ∨ pyTrim rawData = "action=records") :
    handle_message teachers st uid? rawText now today = (st, [Reply.deny])
    ∧ handle_postback teachers st2 uid2? rawData n2 t2 = (st2, [Reply.deny]) :=
  ⟨handle_message_deny teachers st uid? rawText now today hauth hflow,
    handle_postback_deny teachers st2 uid2? rawData n2 t2 hauth2 hpb⟩

theorem C7_unauthorized_denied_witness :
    handle_message ["T"] stA (some "Mallory") "上課日:3" 0 3 = (stA, [Reply.deny])
    ∧ handle_postback ["T"] stA (some "Mallory") "action=attendance" 0 3
      = (stA, [Reply.deny]) :=
  C7_unauthorized_denied ["T"] stA stA (some "Mallory") (some "Mallory")
    "上課日:3" "action=attendance" 0 3 0 3
    (by decide) (by decide) (by decide) (Or.inl (by decide))

/-- C8: a session written at second `t` is still returned (and the store
untouched) by any read up to `t + TTL`, and a read at `t + TTL + 1` returns
none and evicts the entry — expiry is checked lazily inside the read
itself; the TTL is 10 minutes of seconds. -/
theorem C8_session_ttl (m : PendingMap) (uid stage : String) (wd t now : Int)
    (hfresh : now - t ≤ PENDING_TIMEOUT_SEC) :
    pending_get (pending_set m uid stage wd t) uid now
      = (pending_set m uid stage wd t, some ⟨stage, wd, t⟩)
    ∧ pending_get (pending_set m uid stage wd t) uid (t + PENDING_TIMEOUT_SEC + 1)
      = (pending_erase (pending_set m uid stage wd t) uid, none)
    ∧ pending_lookup (pending_erase (pending_set m uid stage wd t) uid) uid = none
    ∧ PENDING_TIMEOUT_SEC = 10 * 60 := by
  refine ⟨pending_get_fresh _ _ _ _ (pending_lookup_set m uid stage wd t) hfresh, ?_,
    pending_lookup_erase _ _, rfl⟩
  unfold pending_get
  rw [pending_lookup_set m uid stage wd t]
  show (if t + PENDING_TIMEOUT_SEC + 1 - (⟨stage, wd, t⟩ : Pending).ts > PENDING_TIMEOUT_SEC then
      (pending_erase (pending_set m uid stage wd t) uid, (none : Option Pending))
    else (pending_set m uid stage wd t, some (⟨stage, wd, t⟩ : Pending)))
    = (pending_erase (pending_set m uid stage wd t) uid, (none : Option Pending))
  rw [if_pos]
  show t + PENDING_TIMEOUT_SEC + 1 - t > PENDING_TIMEOUT_SEC
  omega

theorem C8_session_ttl_witness :
    pending_get (pending_set [] "T" "in_day" 3 0) "T" 600
      = (pending_set [] "T" "in_day" 3 0, some ⟨"in_day", 3, 0⟩)
    ∧ pending_get (pending_set [] "T" "in_day" 3 0) "T" (0 + PENDING_TIMEOUT_SEC + 1)
      = (pending_erase (pending_set [] "T" "in_day" 3 0) "T", none)
    ∧ pending_lookup (pending_erase (pending_set [] "T" "in_day" 3 0) "T") "T" = none
    ∧ PENDING_TIMEOUT_SEC = 10 * 60 :=
  C8_session_ttl [] "T" "in_day" 3 0 600 (by decide)

/-- students sheet for the C9 witness: "Amy" has an empty balance cell,
"Bob" a non-numeric one. -/
def wsC9 : StudentsWs :=
  [("student_name", Cell.str "remaining"), ("Amy", Cell.str ""), ("Bob", Cell.str "abc")]

/-- C9: reading a balance returns 0 for an existing row whose cell strips
to the empty string; the not-found error occurs exactly when no row matches
the name; and a non-empty cell that fails to parse as a float raises the
distinct not-a-number error. -/
theorem C9_balance_cell_parsing (ws : StudentsWs) (nm : String) :
    (∀ r s, find_student_row ws nm = some r → cellAt ws r = some (Cell.str s) →
        pyTrim s = "" → get_remaining ws nm = BalRes.ok 0)
    ∧ (get_remaining ws nm = BalRes.notFound ↔ find_student_row ws nm = none)
    ∧ (∀ r s, find_student_row ws nm = some r → cellAt ws r = some (Cell.str s) →
        pyTrim s ≠ "" → pyFloat? (pyTrim s) = none → get_remaining ws nm = BalRes.notANumber) := by
  refine ⟨?_, ?_, ?_⟩
  · intro r s hf hc he
    rw [get_remaining_eq_of_find ws nm r hf]
    have hc2 : (ws.get? (r - 1)).map Prod.snd = some (Cell.str s) := hc
    rw [hc2]
    show (if pyTrim s = "" then BalRes.ok 0
      else match pyFloat? (pyTrim s) with
        | some q => BalRes.ok q
        | none => BalRes.notANumber) = BalRes.ok 0
    rw [if_pos he]
  · constructor
    · intro h
      rcases hf : find_student_row ws nm with _ | r
      · rfl
      · exfalso
        obtain ⟨_, p, hp, _⟩ := find_some_get ws nm r hf
        rw [get_remaining_eq_of_find ws nm r hf, hp] at h
        simp only [Option.map_some'] at h
        have h2 : readCell p.2 = BalRes.notFound := h
        cases hc : p.2 with
        | num q =>
          rw [hc] at h2
          exact absurd (show BalRes.ok q = BalRes.notFound from h2) (by simp)
        | str s =>
          rw [hc] at h2
          have h3 : (if pyTrim s = "" then BalRes.ok 0
            else match pyFloat? (pyTrim s) with
              | some q => BalRes.ok q
              | none => BalRes.notANumber) = BalRes.notFound := h2
          by_cases he : pyTrim s = ""
          · rw [if_pos he] at h3; exact absurd h3 (by simp)
          · rw [if_neg he] at h3
            rcases hq : pyFloat? (pyTrim s) with _ | q
            · rw [hq] at h3
              have h4 : BalRes.notANumber = BalRes.notFound := h3
              exact absurd h4 (by simp)
            · rw [hq] at h3
              have h4 : BalRes.ok q = BalRes.notFound := h3
              exact absurd h4 (by simp)
    · intro hf
      unfold get_remaining
      rw [hf]
  · intro r s hf hc hne hnum
    rw [get_remaining_eq_of_find ws nm r hf]
    have hc2 : (ws.get? (r - 1)).map Prod.snd = some (Cell.str s) := hc
    rw [hc2]
    show (if pyTrim s = "" then BalRes.ok 0
      else match pyFloat? (pyTrim s) with
        | some q => BalRes.ok q
        | none => BalRes.notANumber) = BalRes.notANumber
    rw [if_neg hne, hnum]

theorem C9_balance_cell_parsing_witness :
    get_remaining wsC9 "Amy" = BalRes.ok 0
    ∧ get_remaining wsC9 "Zoe" = BalRes.notFound
    ∧ get_remaining wsC9 "Bob" = BalRes.notANumber :=
  ⟨(C9_balance_cell_parsing wsC9 "Amy").1 2 "" (by decide) (by decide) (by decide),
    (C9_balance_cell_parsing wsC9 "Zoe").2.1.mpr (by decide),
    (C9_balance_cell_parsing wsC9 "Bob").2.2 3 "abc" (by decide) (by decide) (by decide)
      (by decide)⟩

/-- A state whose assignment table is empty but whose students sheet has
the subject "Ghost". -/
def stG : BotState :=
  ⟨[("T", ⟨"in_day", 3, 0⟩)],
    [("student_name", Cell.str "remaining"), ("Ghost", Cell.str "1")], [], []⟩

/-- C10: the 選擇學生: branch replies a lesson card for whatever name the
text carries — the state (sessions included) is unchanged for *every*
state, so neither the session store nor the roster is consulted; and even
with an empty assignment table (the actor's roster is empty for every
weekday) a subsequent 堂數: event commits a deduction against any existing
subject. -/
theorem C10_pick_student_unchecked
    (teachers : List String) (st : BotState) (uid name lesson : String)
    (now today : Int) (used before : Dec)
    (hu : uid ≠ "") (ht : is_teacher teachers uid = true)
    (htrimS : pyTrim ("選擇學生:" ++ name) = "選擇學生:" ++ name)
    (hn : ':' ∉ name.data)
    (htrimL : pyTrim ("堂數:" ++ name ++ ":" ++ lesson) = "堂數:" ++ name ++ ":" ++ lesson)
    (hused : pyFloat? lesson = some used)
    (hbefore : get_remaining st.students name = BalRes.ok before)
    (hpos : ¬ round2 (before - used) < 0)
    (hnoassign : st.teacher_students = []) :
    handle_message teachers st (some uid) ("選擇學生:" ++ name) now today
      = (st, [Reply.lessonCard (pyTrim name)])
    ∧ (∀ wd, get_teacher_students_by_weekday st.teacher_students uid wd = [])
    ∧ ∃ students1,
        set_remaining st.students name (round2 (before - used)) = some students1 ∧
        handle_message teachers st (some uid) ("堂數:" ++ name ++ ":" ++ lesson) now today
          = ({ st with
                pending := (pending_get st.pending uid now).1,
                students := students1,
                log := st.log ++ [⟨uid, name, lesson, "上課", round2 (before - used)⟩] },
              [Reply.deducted name lesson (round2 (before - used)),
                Reply.afterDoneCard (weekdayOrToday (pending_get st.pending uid now).2 today)]) := by
  refine ⟨handle_message_pickStudent teachers st uid name now today hu ht htrimS, ?_, ?_⟩
  · intro wd
    rw [hnoassign]
    rfl
  · obtain ⟨students1, hset, heq, _⟩ :=
      runBranch_lesson_success st uid name lesson now today used before hu hn hused hbefore hpos
    exact ⟨students1, hset, by
      rw [handle_message_lesson teachers st uid name lesson now today hu ht htrimL]
      exact heq⟩

theorem C10_pick_student_unchecked_witness :
    handle_message ["T"] stG (some "T") ("選擇學生:" ++ "Ghost") 0 1
      = (stG, [Reply.lessonCard (pyTrim "Ghost")])
    ∧ (∀ wd, get_teacher_students_by_weekday stG.teacher_students "T" wd = [])
    ∧ ∃ students1,
        set_remaining stG.students "Ghost" (round2 ((⟨1, 0⟩ : Dec) - ⟨1, 0⟩)) = some students1 ∧
        handle_message ["T"] stG (some "T") ("堂數:" ++ "Ghost" ++ ":" ++ "1") 0 1
          = ({ stG with
                pending := (pending_get stG.pending "T" 0).1,
                students := students1,
                log := stG.log ++ [⟨"T", "Ghost", "1", "上課", round2 ((⟨1, 0⟩ : Dec) - ⟨1, 0⟩)⟩] },
              [Reply.deducted "Ghost" "1" (round2 ((⟨1, 0⟩ : Dec) - ⟨1, 0⟩)),
                Reply.afterDoneCard (weekdayOrToday (pending_get stG.pending "T" 0).2 1)]) :=
  C10_pick_student_unchecked ["T"] stG "T" "Ghost" "1" 0 1 ⟨1, 0⟩ ⟨1, 0⟩
    (by decide) (by decide) (by decide) (by decide) (by decide) (by decide) (by decide)
    (by decide) (by decide)
